import Mathlib

/-!
Verification of the IPv6 ULA derivation helper of the repository
(module podman.ipv6, function deriveUlaFromIpv4).

The JavaScript function is shallowly embedded below.  Each local
variable of the source function becomes one Lean definition
(ipv4AddressOf, octetsOf, subnetIdNumOf, subnetIdHexOf, ulaAddressOf,
ulaBaseOf, hextetsOf, paddedHextetsOf, networkHextetsOf,
ulaNetworkBaseOf, ipv6SubnetAddressOf), and the JavaScript string,
array and number primitives it uses are embedded first:

* jsSplit models String.prototype.split with a non-empty string
  separator (every call site passes "/", ".", "::" or ":");
* joinSep models Array.prototype.join;
* jsPadStart models String.prototype.padStart with a one-character pad;
* jsNumber models Number(string) restricted to the string shapes that
  matter here: the empty string maps to 0 and an optional minus sign
  followed by decimal digits maps to the signed integer it denotes;
  every other string is mapped to NaN.  (Fractional, exponent,
  hexadecimal, Infinity and whitespace forms of the ECMAScript
  StringNumericLiteral grammar are not modelled; no claim below
  depends on the numeric value of such a string.)
* toInt32 / jsShl32 / jsOr32 model the ECMAScript ToInt32 coercion and
  the 32-bit << and | operators, with machine integers as Int reduced
  modulo 2 ^ 32; jsToStringHex models Number.prototype.toString(16) on
  integral values (minus sign followed by the hexadecimal magnitude
  for negative values, lowercase digits).

A JavaScript array access octets[2] past the end of the array yields
undefined, and ToInt32 sends both undefined and NaN to 0; the embedded
octet access therefore has type Option JsNum and jsToInt32 sends none
and NaN to 0.
-/

namespace LuciPodman

/-- One character of the lowercase hexadecimal alphabet used by
Number.prototype.toString(16). -/
def hexDigit : Nat → Char
  | 0 => '0' | 1 => '1' | 2 => '2' | 3 => '3'
  | 4 => '4' | 5 => '5' | 6 => '6' | 7 => '7'
  | 8 => '8' | 9 => '9' | 10 => 'a' | 11 => 'b'
  | 12 => 'c' | 13 => 'd' | 14 => 'e' | _ => 'f'

/-- Hexadecimal digit list of a natural number, most significant digit
first, no leading zeros (the digit list of 0 is the single digit 0).
The first argument is fuel; it is always called with fuel greater than
the number being printed, which is enough since the number shrinks by
a factor of 16 at each step. -/
def natToHexAux : Nat → Nat → List Char
  | 0, _ => []
  | fuel + 1, n =>
    if n < 16 then [hexDigit n] else natToHexAux fuel (n / 16) ++ [hexDigit (n % 16)]

/-- Lowercase hexadecimal rendering of a natural number. -/
def natToHex (n : Nat) : String :=
  String.mk (natToHexAux (n + 1) n)

/-- Model of Number.prototype.toString(16) on an integral value:
negative values print as a minus sign followed by the magnitude. -/
def jsToStringHex (i : Int) : String :=
  if i < 0 then "-" ++ natToHex i.natAbs else natToHex i.toNat

/-- Model of String.prototype.padStart(n, c) with a one-character pad
string: prepend copies of c until the length is at least n. -/
def jsPadStart (s : String) (n : Nat) (c : Char) : String :=
  String.mk (List.replicate (n - s.length) c ++ s.data)

/-- Model of Array.prototype.join(sep). -/
def joinSep (sep : String) : List String → String
  | [] => ""
  | [x] => x
  | x :: xs => x ++ sep ++ joinSep sep xs

/-- Scanner for jsSplit.  Walks the character list looking for the
(non-empty) separator; acc holds the characters of the current field in
reverse.  The fuel argument only makes the recursion structural; it is
called with fuel at least the length of the list, which the scanner
never exceeds since each step consumes at least one character. -/
def jsSplitAux (sep : List Char) : Nat → List Char → List Char → List (List Char)
  | _, [], acc => [acc.reverse]
  | 0, l, acc => [acc.reverse ++ l]
  | fuel + 1, c :: cs, acc =>
    if sep.isPrefixOf (c :: cs) then
      acc.reverse :: jsSplitAux sep fuel (List.drop (sep.length - 1) cs) []
    else
      jsSplitAux sep fuel cs (c :: acc)

/-- Model of String.prototype.split(sep) for a non-empty string
separator and no limit argument (the only form the source uses). -/
def jsSplit (sep : String) (s : String) : List String :=
  (jsSplitAux sep.data s.data.length s.data []).map String.mk

/-- A JavaScript number as it occurs in this pipeline: NaN or an
integral value. -/
inductive JsNum where
  | nan : JsNum
  | num : Int → JsNum
deriving DecidableEq, Repr

/-- Value of a list of decimal digit characters. -/
def decDigitsVal (l : List Char) : Nat :=
  l.foldl (fun a c => a * 10 + (c.toNat - '0'.toNat)) 0

/-- Model of Number(string) on the string shapes relevant here (see the
module docstring): empty string to 0, optional minus sign followed by
decimal digits to the denoted integer, anything else to NaN. -/
def jsNumber (s : String) : JsNum :=
  if s.data = [] then JsNum.num 0
  else if s.data.all Char.isDigit then JsNum.num (decDigitsVal s.data)
  else
    match s.data with
    | '-' :: rest =>
      if rest ≠ [] ∧ rest.all Char.isDigit then JsNum.num (-(decDigitsVal rest : Int))
      else JsNum.nan
    | _ => JsNum.nan

/-- Unsigned 32-bit pattern of an integer (ECMAScript ToUint32 on an
integral value). -/
def toUint32 (i : Int) : Nat :=
  (i % 4294967296).toNat

/-- Reinterpret an unsigned 32-bit pattern as a signed 32-bit value. -/
def ofUint32 (n : Nat) : Int :=
  if n < 2147483648 then (n : Int) else (n : Int) - 4294967296

/-- ECMAScript ToInt32 on an integral value. -/
def toInt32 (i : Int) : Int :=
  ofUint32 (toUint32 i)

/-- ToInt32 applied to the result of an array access: an access past
the end of the array gives undefined, and ToInt32 sends undefined and
NaN to 0. -/
def jsToInt32 : Option JsNum → Int
  | some (JsNum.num i) => toInt32 i
  | _ => 0

/-- The 32-bit left shift operator << (shift count taken modulo 32). -/
def jsShl32 (a : Int) (k : Nat) : Int :=
  ofUint32 (toUint32 a * 2 ^ (k % 32) % 4294967296)

/-- The 32-bit bitwise or operator. -/
def jsOr32 (a b : Int) : Int :=
  ofUint32 (Nat.lor (toUint32 a) (toUint32 b))

/-! ## The embedded function

Source (src/unnamed/part_001, deriveUlaFromIpv4), one definition per
local constant. -/

/-- const ipv4Address = ipv4.split('/')[0]; -/
def ipv4AddressOf (ipv4 : String) : String :=
  (jsSplit "/" ipv4).headD ""

/-- const octets = ipv4Address.split('.').map(Number); -/
def octetsOf (ipv4 : String) : List JsNum :=
  (jsSplit "." (ipv4AddressOf ipv4)).map jsNumber

/-- const subnetId = (octet3 << 8) | octet4 (the numeric value inside
line 56 of the source, with octet3 = octets[2] and octet4 = octets[3]). -/
def subnetIdNumOf (ipv4 : String) : Int :=
  jsOr32 (jsShl32 (jsToInt32 ((octetsOf ipv4).get? 2)) 8)
    (jsToInt32 ((octetsOf ipv4).get? 3))

/-- const subnetIdHex = ((octet3 << 8) | octet4).toString(16).padStart(4, '0'); -/
def subnetIdHexOf (ipv4 : String) : String :=
  jsPadStart (jsToStringHex (subnetIdNumOf ipv4)) 4 '0'

/-- const ulaAddress = ula_prefix.split('/')[0]; -/
def ulaAddressOf (ula : String) : String :=
  (jsSplit "/" ula).headD ""

/-- let ulaBase = ulaAddress.split('::')[0]; -/
def ulaBaseOf (ula : String) : String :=
  (jsSplit "::" (ulaAddressOf ula)).headD ""

/-- let hextets = ulaBase.split(':'), with the edge case fix
if (hextets.length === 1 && hextets[0] === "") hextets = []. -/
def hextetsOf (ula : String) : List String :=
  let h := jsSplit ":" (ulaBaseOf ula)
  if h = [""] then [] else h

/-- State of hextets after while (hextets.length < 3) hextets.push('0'). -/
def paddedHextetsOf (ula : String) : List String :=
  hextetsOf ula ++ List.replicate (3 - (hextetsOf ula).length) "0"

/-- hextets.slice(0, 3). -/
def networkHextetsOf (ula : String) : List String :=
  (paddedHextetsOf ula).take 3

/-- const ulaNetworkBase = hextets.slice(0, 3).join(':'); -/
def ulaNetworkBaseOf (ula : String) : String :=
  joinSep ":" (networkHextetsOf ula)

/-- const ipv6SubnetAddress = ulaNetworkBase + ':' + subnetIdHex + '::'; -/
def ipv6SubnetAddressOf (ipv4 ula : String) : String :=
  ulaNetworkBaseOf ula ++ ":" ++ subnetIdHexOf ipv4 ++ "::"

/-- The returned object. -/
structure DerivedIpv6 where
  ipv6subnet : String
  ipv6gateway : String
deriving DecidableEq, Repr

/-- deriveUlaFromIpv4(ipv4, ula_prefix): the embedded function.  It is
total on pairs of strings, as the source is (the source body contains
no throw and no fallible operation on string arguments). -/
def deriveUlaFromIpv4 (ipv4 ula : String) : DerivedIpv6 :=
  { ipv6subnet := ipv6SubnetAddressOf ipv4 ula ++ "/64"
    ipv6gateway := ipv6SubnetAddressOf ipv4 ula ++ "1" }

/-! ## Spec-side notions used to state the claims -/

/-- The parsed form of an IPv4 input whose address portion consists of
four dot-separated decimal octets, each in the range 0 to 255 — read
off from the same octet list the function itself computes. -/
def parsedIpv4 (s : String) : Option (Nat × Nat × Nat × Nat) :=
  match octetsOf s with
  | [JsNum.num a, JsNum.num b, JsNum.num c, JsNum.num d] =>
    if 0 ≤ a ∧ a < 256 ∧ 0 ≤ b ∧ b < 256 ∧ 0 ≤ c ∧ c < 256 ∧ 0 ≤ d ∧ d < 256 then
      some (a.toNat, b.toNat, c.toNat, d.toNat)
    else none
  | _ => none

/-- The subnet-identifier computation of source line 56, applied to a
given in-range third and fourth octet. -/
def subnetIdOfOctets (o3 o4 : Nat) : String :=
  jsPadStart
    (jsToStringHex (jsOr32 (jsShl32 (toInt32 (o3 : Int)) 8) (toInt32 (o4 : Int))))
    4 '0'

/-- A hexadecimal digit character (either case). -/
def isHexDigitChar (c : Char) : Bool :=
  c.isDigit || ('a' ≤ c && c ≤ 'f') || ('A' ≤ c && c ≤ 'F')

/-- A well-formed IPv6 hextet: one to four hexadecimal digits. -/
def wellFormedHextet (s : String) : Bool :=
  !s.data.isEmpty && s.data.length ≤ 4 && s.data.all isHexDigitChar

/-! ## Decoding the hexadecimal rendering

decodeHex is a left inverse of the padded hexadecimal rendering; this
gives injectivity of the subnet identifier. -/

/-- Value of one lowercase hexadecimal digit character. -/
def hexVal (c : Char) : Nat :=
  match c with
  | '0' => 0 | '1' => 1 | '2' => 2 | '3' => 3 | '4' => 4
  | '5' => 5 | '6' => 6 | '7' => 7 | '8' => 8 | '9' => 9
  | 'a' => 10 | 'b' => 11 | 'c' => 12 | 'd' => 13 | 'e' => 14
  | 'f' => 15 | _ => 0

/-- Value of a big-endian list of hexadecimal digit characters. -/
def decodeHex (l : List Char) : Nat :=
  l.foldl (fun a c => a * 16 + hexVal c) 0

theorem hexVal_hexDigit : ∀ k, k < 16 → hexVal (hexDigit k) = k := by decide

theorem foldl_natToHexAux :
    ∀ fuel n a, n < fuel →
      List.foldl (fun a c => a * 16 + hexVal c) a (natToHexAux fuel n)
        = a * 16 ^ (natToHexAux fuel n).length + n := by
  intro fuel
  induction fuel with
  | zero => intro n a h; omega
  | succ f ih =>
    intro n a h
    by_cases h16 : n < 16
    · simp only [natToHexAux, if_pos h16, List.foldl_cons, List.foldl_nil,
        List.length_cons, List.length_nil, hexVal_hexDigit n h16]
      omega
    · have hdiv : n / 16 < f := by
        have h2 : n / 16 < n := Nat.div_lt_self (by omega) (by omega)
        omega
      simp only [natToHexAux, if_neg h16, List.foldl_append, List.foldl_cons,
        List.foldl_nil, List.length_append, List.length_cons, List.length_nil]
      rw [ih (n / 16) a hdiv, hexVal_hexDigit (n % 16) (Nat.mod_lt n (by omega))]
      rw [Nat.zero_add, pow_succ, ← Nat.mul_assoc]
      generalize a * 16 ^ (natToHexAux f (n / 16)).length = X
      omega

theorem decodeHex_natToHex (n : Nat) : decodeHex (natToHex n).data = n := by
  have h := foldl_natToHexAux (n + 1) n 0 (by omega)
  simpa [decodeHex, natToHex] using h

theorem foldl_replicate_zeroChar :
    ∀ k, List.foldl (fun a c => a * 16 + hexVal c) 0 (List.replicate k '0') = 0 := by
  intro k
  induction k with
  | zero => rfl
  | succ m ih => simpa [List.replicate_succ, hexVal] using ih

theorem decodeHex_padded_natToHex (n : Nat) :
    decodeHex (jsPadStart (natToHex n) 4 '0').data = n := by
  show List.foldl _ 0 (List.replicate (4 - (natToHex n).length) '0' ++ (natToHex n).data) = n
  rw [List.foldl_append, foldl_replicate_zeroChar]
  exact decodeHex_natToHex n

theorem padded_natToHex_injective {n m : Nat}
    (h : jsPadStart (natToHex n) 4 '0' = jsPadStart (natToHex m) 4 '0') : n = m := by
  have h2 := congrArg (fun s => decodeHex s.data) h
  simpa [decodeHex_padded_natToHex] using h2

/-! ## Evaluating the 32-bit operations on in-range octets -/

theorem lor_shifted_eq_add (k c d : Nat) (hd : d < 2 ^ k) :
    Nat.lor (2 ^ k * c) d = 2 ^ k * c + d := by
  show 2 ^ k * c ||| d = 2 ^ k * c + d
  apply Nat.eq_of_testBit_eq
  intro j
  have e1 := Nat.testBit_mul_pow_two_add c hd j
  have e2 := Nat.testBit_mul_pow_two_add c (Nat.two_pow_pos k) j
  rw [Nat.add_zero] at e2
  rw [Nat.testBit_lor, e1, e2]
  by_cases hj : j < k
  · simp [hj, Nat.zero_testBit]
  · have hdj : d < 2 ^ j :=
      lt_of_lt_of_le hd (Nat.pow_le_pow_right (by omega) (by omega))
    simp [hj, Nat.testBit_lt_two_pow hdj]

theorem toUint32_natCast (n : Nat) (h : n < 4294967296) : toUint32 (n : Int) = n := by
  rw [toUint32, Int.emod_eq_of_lt (by omega) (by exact_mod_cast h), Int.toNat_ofNat]

theorem ofUint32_small (n : Nat) (h : n < 2147483648) : ofUint32 n = (n : Int) := by
  rw [ofUint32, if_pos h]

theorem toInt32_natCast (n : Nat) (h : n < 2147483648) : toInt32 (n : Int) = (n : Int) := by
  rw [toInt32, toUint32_natCast n (by omega), ofUint32_small n h]

theorem jsShl32_octet (c : Nat) (hc : c < 256) :
    jsShl32 (c : Int) 8 = ((c * 256 : Nat) : Int) := by
  rw [jsShl32, toUint32_natCast c (by omega)]
  norm_num
  rw [Nat.mod_eq_of_lt (by omega), ofUint32_small _ (by omega)]
  push_cast
  ring

theorem jsOr32_octets (c d : Nat) (hc : c < 256) (hd : d < 256) :
    jsOr32 ((c * 256 : Nat) : Int) ((d : Nat) : Int) = ((c * 256 + d : Nat) : Int) := by
  rw [jsOr32, toUint32_natCast _ (by omega), toUint32_natCast _ (by omega)]
  have h : Nat.lor (c * 256) d = c * 256 + d := by
    have h2 := lor_shifted_eq_add 8 c d (by omega)
    norm_num at h2
    rw [Nat.mul_comm 256 c] at h2
    exact h2
  rw [h, ofUint32_small _ (by omega)]

theorem subnetIdOfOctets_eval (c d : Nat) (hc : c < 256) (hd : d < 256) :
    subnetIdOfOctets c d = jsPadStart (natToHex (c * 256 + d)) 4 '0' := by
  rw [subnetIdOfOctets, toInt32_natCast c (by omega), toInt32_natCast d (by omega),
    jsShl32_octet c hc, jsOr32_octets c d hc hd, jsToStringHex,
    if_neg (by omega), Int.toNat_ofNat]

theorem parsedIpv4_octets {s : String} {a b c d : Nat}
    (h : parsedIpv4 s = some (a, b, c, d)) :
    (octetsOf s).get? 2 = some (JsNum.num (c : Int))
    ∧ (octetsOf s).get? 3 = some (JsNum.num (d : Int))
    ∧ c < 256 ∧ d < 256 := by
  unfold parsedIpv4 at h
  split at h
  next a' b' c' d' heq =>
    split at h
    next hcond =>
      obtain ⟨h1, h2, h3, h4, h5, h6, h7, h8⟩ := hcond
      rw [Option.some.injEq, Prod.mk.injEq, Prod.mk.injEq, Prod.mk.injEq] at h
      obtain ⟨ha, hb, hc, hd⟩ := h
      subst ha hb hc hd
      refine ⟨?_, ?_, by omega, by omega⟩
      · rw [heq, Int.toNat_of_nonneg h5]; rfl
      · rw [heq, Int.toNat_of_nonneg h7]; rfl
    next => simp at h
  next => simp at h

theorem subnetIdHexOf_eq_subnetIdOfOctets {s : String} {a b c d : Nat}
    (h : parsedIpv4 s = some (a, b, c, d)) :
    subnetIdHexOf s = subnetIdOfOctets c d := by
  obtain ⟨h2, h3, _, _⟩ := parsedIpv4_octets h
  rw [subnetIdHexOf, subnetIdNumOf, h2, h3, subnetIdOfOctets]
  rfl

theorem subnetIdHexOf_parsed {s : String} {a b c d : Nat}
    (h : parsedIpv4 s = some (a, b, c, d)) :
    subnetIdHexOf s = jsPadStart (natToHex (c * 256 + d)) 4 '0' := by
  obtain ⟨_, _, hc, hd⟩ := parsedIpv4_octets h
  rw [subnetIdHexOf_eq_subnetIdOfOctets h, subnetIdOfOctets_eval c d hc hd]

/-! ## The claims -/

/-- C1: deriveUlaFromIpv4("192.168.20.0/24", "fd52:425:78eb::/48") returns
exactly the object with ipv6subnet "fd52:425:78eb:1400::/64" and
ipv6gateway "fd52:425:78eb:1400::1". -/
theorem claim_concrete_full_prefix :
    deriveUlaFromIpv4 "192.168.20.0/24" "fd52:425:78eb::/48"
      = { ipv6subnet := "fd52:425:78eb:1400::/64"
          ipv6gateway := "fd52:425:78eb:1400::1" } := by decide

/-- C2 counterexample: deriveUlaFromIpv4("172.16.0.1/16", "::/48") does NOT
return the object with ipv6subnet "0:0:0:1::/64" and ipv6gateway
"0:0:0:1::1" claimed by the spec: padStart(4, '0') renders the fourth
hextet of octet pair (0, 1) as "0001", not "1". -/
theorem claim_concrete_min_prefix_unpadded_false :
    ¬ (deriveUlaFromIpv4 "172.16.0.1/16" "::/48"
        = { ipv6subnet := "0:0:0:1::/64"
            ipv6gateway := "0:0:0:1::1" }) := by decide

/-- C2 amended: deriveUlaFromIpv4("172.16.0.1/16", "::/48") returns exactly
the object with ipv6subnet "0:0:0:0001::/64" and ipv6gateway
"0:0:0:0001::1"; for octet pair (0, 1) the fourth hextet of the output is
rendered zero-padded as "0001". -/
theorem claim_concrete_min_prefix_padded :
    deriveUlaFromIpv4 "172.16.0.1/16" "::/48"
      = { ipv6subnet := "0:0:0:0001::/64"
          ipv6gateway := "0:0:0:0001::1" } := by decide

/-- C3 counterexample: on inputs "192.168.0.0/24" and "fd00::/8" the claim
fails: the subnet identifier is "0000" as claimed, but the ipv6subnet is
not "0:0:0:0000::/64", because the hextet "fd00" of the ULA prefix is kept
as the first hextet of the network base. -/
theorem claim_concrete_fd00_as_stated_false :
    ¬ (subnetIdHexOf "192.168.0.0/24" = "0000"
       ∧ (deriveUlaFromIpv4 "192.168.0.0/24" "fd00::/8").ipv6subnet
           = "0:0:0:0000::/64") := by decide

/-- C3 amended: deriveUlaFromIpv4("192.168.0.0/24", "fd00::/8") produces
subnet identifier "0000" and ipv6subnet "fd00:0:0:0000::/64" (the single
leading hextet "fd00" is padded with two "0" hextets). -/
theorem claim_concrete_fd00_actual :
    subnetIdHexOf "192.168.0.0/24" = "0000"
    ∧ deriveUlaFromIpv4 "192.168.0.0/24" "fd00::/8"
        = { ipv6subnet := "fd00:0:0:0000::/64"
            ipv6gateway := "fd00:0:0:0000::1" } := by decide

/-- C4: for every input pair (indeed for all pairs of strings, which
covers the valid pairs of the claim), the returned ipv6gateway equals the
returned ipv6subnet with the "/64" suffix removed and the trailing "::"
replaced by "::1": both strings extend a common base, the subnet with
"::" ++ "/64" and the gateway with "::" ++ "1". -/
theorem claim_gateway_from_subnet (ipv4 ula : String) :
    ∃ base,
      (deriveUlaFromIpv4 ipv4 ula).ipv6subnet = base ++ "::" ++ "/64"
      ∧ (deriveUlaFromIpv4 ipv4 ula).ipv6gateway = base ++ "::" ++ "1" :=
  ⟨ulaNetworkBaseOf ula ++ ":" ++ subnetIdHexOf ipv4, rfl, rfl⟩

/-- C5: the subnet identifier (the string the function splices in as the
fourth leading hextet of both outputs — third conjunct) agrees between two
valid IPv4 inputs exactly when their (octet3, octet4) pairs agree,
regardless of the first two octets and of any CIDR suffix (first
conjunct, both directions of the iff), and the map from the 65536
octet pairs to the rendered identifier is injective, hence a bijection
onto its image (second conjunct). -/
theorem claim_subnetId_bijective (ula : String) :
    (∀ s t a b c d a' b' c' d',
        parsedIpv4 s = some (a, b, c, d) → parsedIpv4 t = some (a', b', c', d') →
        (subnetIdHexOf s = subnetIdHexOf t ↔ (c = c' ∧ d = d')))
    ∧ Function.Injective (fun p : Fin 256 × Fin 256 => subnetIdOfOctets p.1 p.2)
    ∧ (∀ ipv4, (deriveUlaFromIpv4 ipv4 ula).ipv6subnet
          = ulaNetworkBaseOf ula ++ ":" ++ subnetIdHexOf ipv4 ++ "::" ++ "/64") := by
  refine ⟨?_, ?_, fun ipv4 => rfl⟩
  · intro s t a b c d a' b' c' d' hs ht
    obtain ⟨_, _, hc, hd⟩ := parsedIpv4_octets hs
    obtain ⟨_, _, hc', hd'⟩ := parsedIpv4_octets ht
    rw [subnetIdHexOf_parsed hs, subnetIdHexOf_parsed ht]
    constructor
    · intro h
      have h2 := padded_natToHex_injective h
      omega
    · rintro ⟨rfl, rfl⟩
      rfl
  · intro p q hpq
    obtain ⟨⟨pc, hpc⟩, ⟨pd, hpd⟩⟩ := p
    obtain ⟨⟨qc, hqc⟩, ⟨qd, hqd⟩⟩ := q
    simp only at hpq
    rw [subnetIdOfOctets_eval pc pd hpc hpd, subnetIdOfOctets_eval qc qd hqc hqd] at hpq
    have h2 := padded_natToHex_injective hpq
    simp only [Prod.mk.injEq, Fin.mk.injEq]
    omega

/-- C5 witness: instantiating the first conjunct at two concrete valid
IPv4 inputs sharing octet pair (20, 0). -/
theorem claim_subnetId_bijective_witness :
    subnetIdHexOf "192.168.20.0/24" = subnetIdHexOf "10.77.20.0" ↔ (20 = 20 ∧ 0 = 0) :=
  (claim_subnetId_bijective "fd52:425:78eb::/48").1
    "192.168.20.0/24" "10.77.20.0" 192 168 20 0 10 77 20 0 (by decide) (by decide)

/-- C6: deriveUlaFromIpv4 is deterministic: two calls with identical
input strings yield identical output objects.  The embedding makes the
absence of hidden state and I/O structural: deriveUlaFromIpv4 is a plain
function of its two string arguments. -/
theorem claim_deterministic (ipv4₁ ula₁ ipv4₂ ula₂ : String)
    (h1 : ipv4₁ = ipv4₂) (h2 : ula₁ = ula₂) :
    deriveUlaFromIpv4 ipv4₁ ula₁ = deriveUlaFromIpv4 ipv4₂ ula₂ := by
  rw [h1, h2]

/-- C6 witness: the determinism theorem applied at a concrete input pair. -/
theorem claim_deterministic_witness :
    deriveUlaFromIpv4 "192.168.20.0/24" "fd52:425:78eb::/48"
      = deriveUlaFromIpv4 "192.168.20.0/24" "fd52:425:78eb::/48" :=
  claim_deterministic "192.168.20.0/24" "fd52:425:78eb::/48"
    "192.168.20.0/24" "fd52:425:78eb::/48" rfl rfl

/-- C7: a ULA prefix whose address part has exactly 2 leading hextets
before "::" is padded with a literal "0" third hextet: the network base
hextets are the two given hextets followed by "0", and the output subnet
string carries that ":0" third hextet for every IPv4 input. -/
theorem claim_short_prefix_pads_zero (ula : String)
    (h : (hextetsOf ula).length = 2) (ipv4 : String) :
    networkHextetsOf ula = hextetsOf ula ++ ["0"]
    ∧ (networkHextetsOf ula).get? 2 = some "0"
    ∧ (deriveUlaFromIpv4 ipv4 ula).ipv6subnet
        = joinSep ":" (hextetsOf ula ++ ["0"]) ++ ":" ++ subnetIdHexOf ipv4
            ++ "::" ++ "/64" := by
  have hpad : paddedHextetsOf ula = hextetsOf ula ++ ["0"] := by
    rw [paddedHextetsOf, h]
    rfl
  have hnet : networkHextetsOf ula = hextetsOf ula ++ ["0"] := by
    rw [networkHextetsOf, hpad]
    exact List.take_of_length_le (by simp [h])
  refine ⟨hnet, ?_, ?_⟩
  · rw [hnet]
    have h2 := List.get?_concat_length (hextetsOf ula) "0"
    rw [h] at h2
    exact h2
  · show ipv6SubnetAddressOf ipv4 ula ++ "/64" = _
    rw [ipv6SubnetAddressOf, ulaNetworkBaseOf, hnet]

/-- C7 witness: the short-prefix theorem applied to "fd52:425::/48". -/
theorem claim_short_prefix_pads_zero_witness :
    (hextetsOf "fd52:425::/48").length = 2
    ∧ (networkHextetsOf "fd52:425::/48").get? 2 = some "0" :=
  ⟨by decide,
    (claim_short_prefix_pads_zero "fd52:425::/48" (by decide) "10.89.5.0/24").2.1⟩

/-- C8: only the first 3 leading hextets of the ULA prefix reach the
output: two ULA prefixes whose hextet lists (each of length at least 3,
which covers every prefix with 4 or more leading hextets) agree on their
first 3 hextets produce identical output objects on every IPv4 input,
and the output subnet string is built from exactly those first 3
hextets. -/
theorem claim_extra_hextets_dropped (u₁ u₂ : String)
    (h₁ : 3 ≤ (hextetsOf u₁).length) (h₂ : 3 ≤ (hextetsOf u₂).length)
    (h : (hextetsOf u₁).take 3 = (hextetsOf u₂).take 3) (ipv4 : String) :
    deriveUlaFromIpv4 ipv4 u₁ = deriveUlaFromIpv4 ipv4 u₂
    ∧ (deriveUlaFromIpv4 ipv4 u₁).ipv6subnet
        = joinSep ":" ((hextetsOf u₁).take 3) ++ ":" ++ subnetIdHexOf ipv4
            ++ "::" ++ "/64" := by
  have hnet : ∀ u, 3 ≤ (hextetsOf u).length →
      networkHextetsOf u = (hextetsOf u).take 3 := by
    intro u hu
    rw [networkHextetsOf, paddedHextetsOf]
    have h0 : 3 - (hextetsOf u).length = 0 := by omega
    rw [h0]
    simp
  have e1 := hnet u₁ h₁
  have e2 := hnet u₂ h₂
  have ebase : ulaNetworkBaseOf u₁ = ulaNetworkBaseOf u₂ := by
    rw [ulaNetworkBaseOf, ulaNetworkBaseOf, e1, e2, h]
  constructor
  · rw [deriveUlaFromIpv4, deriveUlaFromIpv4,
      ipv6SubnetAddressOf, ipv6SubnetAddressOf, ebase]
  · show ipv6SubnetAddressOf ipv4 u₁ ++ "/64" = _
    rw [ipv6SubnetAddressOf, ulaNetworkBaseOf, e1]

/-- C8 witness: the spec's 5-hextet example prefix and its 3-hextet
truncation produce the same output. -/
theorem claim_extra_hextets_dropped_witness :
    deriveUlaFromIpv4 "192.168.20.0/24" "fd52:425:78eb:9:abcd::/64"
      = deriveUlaFromIpv4 "192.168.20.0/24" "fd52:425:78eb::" :=
  (claim_extra_hextets_dropped "fd52:425:78eb:9:abcd::/64" "fd52:425:78eb::"
    (by decide) (by decide) (by decide) "192.168.20.0/24").1

/-- C9: on the input "10.0.0.-1", whose fourth octet parses as the
negative number -1, the function returns normally (the embedding is a
total function, as the source body contains no throw) and the fourth
leading hextet of the returned ipv6subnet is "00-1", which is not a
well-formed 1-to-4-hex-digit hextet: it contains a minus sign. -/
theorem claim_malformed_output_on_bad_octet :
    (octetsOf "10.0.0.-1").get? 3 = some (JsNum.num (-1))
    ∧ (-1 : Int) < 0
    ∧ deriveUlaFromIpv4 "10.0.0.-1" "fd52:425:78eb::/48"
        = { ipv6subnet := "fd52:425:78eb:00-1::/64"
            ipv6gateway := "fd52:425:78eb:00-1::1" }
    ∧ (jsSplit ":"
        (deriveUlaFromIpv4 "10.0.0.-1" "fd52:425:78eb::/48").ipv6subnet).get? 3
        = some "00-1"
    ∧ wellFormedHextet "00-1" = false := by decide

/-- C10: for every IPv4 input whose address portion has fewer than 3
dot-separated components (so that octets[2] and octets[3] are both
absent and are coerced to 0 by the 32-bit shift and bitwise-or), the
function returns normally with subnet identifier "0000", whatever the
ULA prefix. -/
theorem claim_short_ipv4_id_zero (ipv4 : String)
    (h : (jsSplit "." (ipv4AddressOf ipv4)).length < 3) (ula : String) :
    subnetIdHexOf ipv4 = "0000"
    ∧ (deriveUlaFromIpv4 ipv4 ula).ipv6subnet
        = ulaNetworkBaseOf ula ++ ":" ++ "0000" ++ "::" ++ "/64" := by
  have hlen : (octetsOf ipv4).length < 3 := by
    rw [octetsOf, List.length_map]
    exact h
  have h2 : (octetsOf ipv4).get? 2 = none := List.get?_eq_none.mpr (by omega)
  have h3 : (octetsOf ipv4).get? 3 = none := List.get?_eq_none.mpr (by omega)
  have hid : subnetIdHexOf ipv4 = "0000" := by
    rw [subnetIdHexOf, subnetIdNumOf, h2, h3]
    decide
  refine ⟨hid, ?_⟩
  show ipv6SubnetAddressOf ipv4 ula ++ "/64" = _
  rw [ipv6SubnetAddressOf, hid]

/-- C10 witness: the two-component input "10.0" yields subnet identifier
"0000". -/
theorem claim_short_ipv4_id_zero_witness :
    (jsSplit "." (ipv4AddressOf "10.0")).length < 3
    ∧ subnetIdHexOf "10.0" = "0000" :=
  ⟨by decide, (claim_short_ipv4_id_zero "10.0" (by decide) "fd52:425:78eb::/48").1⟩

end LuciPodman
